import Mathlib

/-!
Verification of the epdoc console-logger core against its specification.

The definitions below are a shallow embedding of the TypeScript sources:
log-level ranks and gating (`src/logger.ts`, `src/transports/transport.ts`),
the `Style` class (`src/style.ts`), the state-based `Logger`/`LoggerLine`
variant (`Logger.initLine` and `LoggerLine` operating over `LoggerState`),
the per-transport line variant (`src/line.ts` plus
`src/transports/transport.ts`), and the `FileTransport` buffering logic.
JavaScript exceptions are modelled with `Except String`; `undefined` values
with `Option`.
-/

/-! ## Log levels (src/logger.ts lines 10-39)

`logLevel = { trace: 1, debug: 3, verbose: 5, info: 7, warn: 8, error: 9 }`.
-/

/-- The numeric rank set accepted by `isLogLevelValue` (src/logger.ts line 38). -/
def isLogLevelValue (n : Nat) : Bool :=
  [1, 3, 5, 7, 8, 9].contains n

/-- Symbolic level names mapped to ranks, the `logLevel` constant object. -/
def logLevelTable : List (String × Nat) :=
  [("trace", 1), ("debug", 3), ("verbose", 5), ("info", 7), ("warn", 8), ("error", 9)]

/-- A level argument as accepted by `logLevelToValue`: either a number or a
string (symbolic name or numeric string). -/
inductive LevelArg where
  | num (n : Nat)
  | str (s : String)
  deriving DecidableEq

/-- Embedding of `logLevelToValue` (src/logger.ts lines 22-30): a valid rank
is returned as is; a numeric string parsing to a valid rank is accepted; a
symbolic name is looked up; anything else yields `undefined` (here `none`).
`asInt` from the external typeutil library is modelled by `String.toNat?`. -/
def logLevelToValue : LevelArg → Option Nat
  | .num n => if isLogLevelValue n then some n else none
  | .str s =>
    match s.toNat? with
    | some n => if isLogLevelValue n then some n else
        (logLevelTable.find? (fun p => p.1 = s)).map (fun p => p.2)
    | none => (logLevelTable.find? (fun p => p.1 = s)).map (fun p => p.2)

/-- Embedding of `Logger.isEnabledFor` (src/logger.ts lines 231-233):
`this._level <= logLevelToValue(val)`. In JavaScript a comparison against
`undefined` is false, modelled by the `none` branch. -/
def Logger.isEnabledFor (loggerLevel : Nat) (val : LevelArg) : Bool :=
  match logLevelToValue val with
  | some v => decide (loggerLevel ≤ v)
  | none => false

/-! ## JavaScript string helpers -/

/-- Embedding of JavaScript `' '.repeat(count)` over an integer count: a
negative count throws `RangeError: Invalid count value`. -/
def jsRepeat (c : Char) (n : Int) : Except String String :=
  if n < 0 then .error "RangeError: Invalid count value"
  else .ok (String.mk (List.replicate n.toNat c))

/-- JavaScript `array.join(' ')`. -/
def joinSpace (parts : List String) : String :=
  String.intercalate " " parts

/-- True when the first character list starts the second. -/
def leadsWith : List Char → List Char → Bool
  | [], _ => true
  | _ :: _, [] => false
  | a :: as, b :: bs => a = b && leadsWith as bs

/-- True when the first character list occurs in the second. -/
def hasSub (needle : List Char) : List Char → Bool
  | [] => leadsWith needle []
  | b :: rest => leadsWith needle (b :: rest) || hasSub needle rest

/-- Substring containment test, used to check whether an error message
includes a given fragment (JavaScript `String.prototype.includes`). -/
def strIncludes (hay needle : String) : Bool :=
  hasSub needle.toList hay.toList

/-- Embedding of `countTabsAtBeginningOfString` (src/util.ts lines 46-56). -/
def countTabsAux : List Char → Nat
  | [] => 0
  | c :: rest => if c = '\t' then countTabsAux rest + 1 else 0

/-- Counts leading tab characters of a string. -/
def countTabsAtBeginningOfString (s : String) : Nat :=
  countTabsAux s.toList

/-- Embedding of `rightPadAndTruncate` (src/transports/transport.ts lines
133-135): truncate to `length - 1` characters when too long, else pad with
the fill character to exactly `length`. -/
def rightPadAndTruncate (str : String) (len : Nat) (c : Char := ' ') : String :=
  if str.length > len then String.mk (str.toList.take (len - 1))
  else str ++ String.mk (List.replicate (len - str.length) c)

/-! ## Style (src/style.ts) -/

/-- `StyleDef` (src/style.ts lines 5-8): optional foreground and background
color codes. -/
structure StyleDef where
  fg : Option Nat := none
  bg : Option Nat := none
  deriving DecidableEq

/-- `isValidColor` (src/util.ts lines 38-43): an integer in
`[Color.black, Color.white]`, i.e. `[30, 97]`; `undefined` is invalid. -/
def isValidColor : Option Nat → Bool
  | some n => decide (30 ≤ n) && decide (n ≤ 97)
  | none => false

/-- The built-in style table `styles` (src/style.ts lines 10-27), with the
`Color` enum values from src/util.ts substituted. -/
def defaultStyles : List (String × StyleDef) :=
  [("text", { fg := some 97 }),
   ("h1", { fg := some 95 }),
   ("h2", { fg := some 95 }),
   ("h3", { fg := some 92 }),
   ("action", { fg := some 30, bg := some 93 }),
   ("label", { fg := some 36 }),
   ("highlight", { fg := some 35 }),
   ("value", { fg := some 94 }),
   ("path", { fg := some 34 }),
   ("date", { fg := some 35 }),
   ("warn", { fg := some 96 }),
   ("error", { fg := some 31 }),
   ("strikethru", { fg := some 7 }),
   ("_elapsed", { fg := some 90 }),
   ("_levelPrefix", { fg := some 90 }),
   ("_timePrefix", { fg := some 90 })]

/-- Lookup in a style table, JavaScript `this.styles[name]` (`none` models
`undefined` for an unknown style name). -/
def lookupStyle (table : List (String × StyleDef)) (name : String) : Option StyleDef :=
  (table.find? (fun p => p.1 = name)).map (fun p => p.2)

/-- The ANSI start escape `\u001b[<n>m` (src/style.ts lines 97 and 101). -/
def ansiCode (n : Nat) : String :=
  "\x1b[" ++ toString n ++ "m"

/-- The ANSI reset escape `\u001b[0m`. -/
def ansiReset : String :=
  "\x1b[0m"

/-- Foreground start escape contributed by a rule (src/style.ts line 96-99). -/
def fgPre (d : StyleDef) : String :=
  if isValidColor d.fg then
    match d.fg with
    | some f => ansiCode f
    | none => ""
  else ""

/-- Foreground reset contributed by a rule. -/
def fgPost (d : StyleDef) : String :=
  if isValidColor d.fg then ansiReset else ""

/-- Background start escape contributed by a rule (src/style.ts lines
100-103); note the `+ 10` shift of the color code. -/
def bgPre (d : StyleDef) : String :=
  if isValidColor d.bg then
    match d.bg with
    | some b => ansiCode (b + 10)
    | none => ""
  else ""

/-- Background reset contributed by a rule. -/
def bgPost (d : StyleDef) : String :=
  if isValidColor d.bg then ansiReset else ""

/-- Embedding of `Style.format` (src/style.ts lines 81-106) applied to an
already-converted string `s` (the non-string conversions on lines 84-90 are
performed by external library calls and happen before the color logic).
The resolved rule is `Option StyleDef` because `this.styles[style]` is
`undefined` for an unknown style name; in that case, with color formatting
enabled, line 96 dereferences `styleDef.fg` and throws a `TypeError`. -/
def Style.format (colorFormat : Bool) (styleDef : Option StyleDef) (s : String) :
    Except String String :=
  if colorFormat = false then .ok s
  else
    match styleDef with
    | none => .error "TypeError: cannot read fg of undefined"
    | some d => .ok (fgPre d ++ bgPre d ++ s ++ fgPost d ++ bgPost d)

/-- A style argument as accepted by `Style.format` and the `stylize`
methods: a style name, a literal rule, or `undefined`. -/
inductive StyleArg where
  | name (s : String)
  | rule (d : StyleDef)
  | undef
  deriving DecidableEq

/-- Resolution of a style argument against a table: a string argument is
looked up (`typeof style === 'string' ? this.styles[style] : style`). -/
def resolveStyle (table : List (String × StyleDef)) : StyleArg → Option StyleDef
  | .name s => lookupStyle table s
  | .rule d => some d
  | .undef => none

/-- `Style.format` with a style argument, resolving names through a table. -/
def Style.formatArg (colorFormat : Bool) (table : List (String × StyleDef))
    (a : StyleArg) (s : String) : Except String String :=
  Style.format colorFormat (resolveStyle table a) s

/-- Embedding of `Style.enable` (src/style.ts lines 57-61) as a function on
the `_colorFormat` flag: the flag is set only when the argument is exactly
`true`; any other call leaves the flag unchanged. -/
def Style.enable (val : Bool) (colorFormat : Bool) : Bool :=
  if val = true then true else colorFormat

/-! ## State-based Logger variant

`Logger` delegating to a `LoggerState` (src/state.ts, the class holding
`_loggerLevel`, `_tab`, `_levelPrefix`, `_timePrefix`, `_keepLines`,
`_lines` and a `Style` instance) and a `LoggerLine` built over that state
(the variant whose `tab`/`indent` push into `_parts` and whose `emit`
joins `[...parts, ...args]`). `Logger.initLine` is the guarded entry point
of the level methods. The `Style` instance owned by the state is modelled
by its `_colorFormat` flag plus its style table. -/

/-- The time-prefix mode (`'local' | 'utc' | 'elapsed' | false`). -/
inductive TimePfx where
  | localTime
  | utcTime
  | elapsedTime
  | off
  deriving DecidableEq

/-- The `LoggerState` fields the line-composition logic reads
(src/state.ts): the logger-level threshold, tab size, level/time prefix
settings, the keep-lines flag with its line store, and the owned `Style`
instance (its `_colorFormat` flag and style table). -/
structure StateSt where
  loggerLevel : Nat := 7
  tabSize : Int := 2
  showLevelPfx : Bool := false
  timePfx : TimePfx := .off
  keepLines : Bool := false
  lines : List String := []
  colorFormat : Bool := false
  styles : List (String × StyleDef) := defaultStyles
  deriving DecidableEq

/-- The mutable fields of the state-based `LoggerLine`: ordered parts, the
line's level, the elapsed-annotation flag and the enabled flag. -/
structure LineSt where
  parts : List String := []
  level : Nat := 7
  showElapsed : Bool := false
  enabled : Bool := false
  deriving DecidableEq

/-- `LoggerLine.isEmpty`: true when no parts are buffered. -/
def LineSt.isEmpty (st : LineSt) : Bool :=
  st.parts.isEmpty

/-- `LoggerLine.clear`: resets enabled, elapsed flag and parts. -/
def LineSt.clear (st : LineSt) : LineSt :=
  { st with enabled := false, showElapsed := false, parts := [] }

/-- `LoggerLine.enable`: sets the enabled flag. -/
def LineSt.enable (st : LineSt) : LineSt :=
  { st with enabled := true }

/-- The `LoggerLine.level(val)` mutator. -/
def LineSt.setLevelVal (st : LineSt) (val : Nat) : LineSt :=
  { st with level := val }

/-- `LoggerLine.tab(n)`: when enabled, pushes `' '.repeat(n * tabSize - 1)`
into the parts; a no-op when the line is disabled. -/
def LineSt.tab (state : StateSt) (st : LineSt) (n : Int) : Except String LineSt :=
  if st.enabled then
    match jsRepeat ' ' (n * state.tabSize - 1) with
    | .ok s => .ok { st with parts := st.parts ++ [s] }
    | .error e => .error e
  else .ok st

/-- An `Integer | string` argument of `indent`. -/
inductive IndentArg where
  | int (n : Int)
  | str (s : String)
  deriving DecidableEq

/-- `LoggerLine.indent(n)`: when enabled, an integer pushes
`' '.repeat(n - 1)` and a non-empty string pushes itself. -/
def LineSt.indent (st : LineSt) : IndentArg → Except String LineSt
  | .int n =>
    if st.enabled then
      match jsRepeat ' ' (n - 1) with
      | .ok s => .ok { st with parts := st.parts ++ [s] }
      | .error e => .error e
    else .ok st
  | .str s =>
    if st.enabled then
      .ok (if s ≠ "" then { st with parts := st.parts ++ [s] } else st)
    else .ok st

/-- `LoggerLine.stylize(style, ...args)`: when enabled and given arguments,
resolves the style in the state's table and pushes the formatted join of
the arguments (`state.style.format` may throw, see `Style.format`). -/
def LineSt.stylize (state : StateSt) (st : LineSt) (style : StyleArg)
    (args : List String) : Except String LineSt :=
  if st.enabled ∧ args ≠ [] then
    match Style.formatArg state.colorFormat state.styles style (joinSpace args) with
    | .ok s => .ok { st with parts := st.parts ++ [s] }
    | .error e => .error e
  else .ok st

/-- The dynamic `text` style method: `stylize('text', ...args)`. -/
def LineSt.text (state : StateSt) (st : LineSt) (args : List String) :
    Except String LineSt :=
  LineSt.stylize state st (.name "text") args

/-- Names for ranks; the `levels` module defining `getLogLevelString` is
not part of the sources. Modelled from the spec: symbolic names map
bidirectionally to ranks. -/
def getLogLevelString (rank : Nat) : String :=
  match (logLevelTable.find? (fun p => p.2 = rank)).map (fun p => p.1) with
  | some s => s
  | none => "undefined"

/-- `addLevelPrefix`: when the state shows level prefixes, unshifts
`style.levelPrefix('[LEVEL]')` padded to width 9 (the dynamic style method
named `levelPrefix` formats with the `'_levelPrefix'` rule). -/
def LineSt.addLevelPfx (state : StateSt) (st : LineSt) : Except String LineSt :=
  if state.showLevelPfx then
    let str := "[" ++ (getLogLevelString st.level).toUpper ++ "]"
    match Style.formatArg state.colorFormat state.styles (.name "_levelPrefix")
      (rightPadAndTruncate str 9) with
    | .ok s => .ok { st with parts := s :: st.parts }
    | .error e => .error e
  else .ok st

/-- `addTimePrefix`: when a time-prefix mode is configured, unshifts
`style.timePrefix(time)`; the wall-clock or timer reading is an input. -/
def LineSt.addTimePfx (state : StateSt) (st : LineSt) (timeStr : String) :
    Except String LineSt :=
  if state.timePfx ≠ .off then
    match Style.formatArg state.colorFormat state.styles (.name "_timePrefix") timeStr with
    | .ok s => .ok { st with parts := s :: st.parts }
    | .error e => .error e
  else .ok st

/-- `LoggerLine.emit(...args)` of the state-based variant: a no-op when the
line is disabled; otherwise adds the level and time prefixes, joins
`[...parts, ...args]` with spaces, appends the elapsed annotation when
requested (the source computes `' ' + this.stylize(...)`, which in
JavaScript stringifies the returned line object, hence the literal
`[object Object]`), stores the line (the source tests
`this._state.setKeepLines`, a method reference that is always truthy, so
the line is always pushed to `state.lines`), and clears the line. The
timer/clock readings are inputs. Returns the new state pair and the string
passed to `console.log`, which is always `none` here. -/
def LineSt.emit (state : StateSt) (st : LineSt) (args : List String)
    (timeStr : String) : Except String (StateSt × LineSt × Option String) :=
  if st.enabled then do
    let st ← LineSt.addLevelPfx state st
    let st ← LineSt.addTimePfx state st timeStr
    let line := joinSpace (st.parts ++ args)
    let (st, line) ←
      if st.showElapsed then do
        let st ← LineSt.stylize state st (.name "_elapsed") ["elapsed-reading"]
        .ok (st, line ++ " [object Object]")
      else .ok (st, line)
    .ok ({ state with lines := state.lines ++ [line] }, LineSt.clear st, none)
  else .ok (state, st, none)

/-- `Logger.initLine(level, ...args)` (the state-based `Logger`): throws
when the current line still holds parts; otherwise clears the line, sets
its level, enables it when the threshold allows
(`this._state.level <= level`), strips leading tabs of the first argument
into a `tab(count)` call, and appends the remaining text through the
`text` style. -/
def Logger.initLine (state : StateSt) (line : LineSt) (level : Nat)
    (args : List String) : Except String (StateSt × LineSt) :=
  if ¬ line.isEmpty then
    .error "Emit the previous log message before logging a new one"
  else do
    let line := (LineSt.clear line).setLevelVal level
    let line := if state.loggerLevel ≤ level then line.enable else line
    let (line, args) ←
      match args with
      | [] => .ok (line, args)
      | a0 :: rest => do
        let count := countTabsAtBeginningOfString a0
        if count ≠ 0 then do
          let line ← LineSt.tab state line count
          .ok (line, a0.drop count :: rest)
        else .ok (line, a0 :: rest)
    let line ← LineSt.text state line args
    .ok (state, line)

/-- `Logger.trace(...args)`: `initLine(logLevel.trace, ...args)`. -/
def Logger.trace (state : StateSt) (line : LineSt) (args : List String) :
    Except String (StateSt × LineSt) :=
  Logger.initLine state line 1 args

/-- `Logger.debug(...args)`: `initLine(logLevel.debug, ...args)`. -/
def Logger.debug (state : StateSt) (line : LineSt) (args : List String) :
    Except String (StateSt × LineSt) :=
  Logger.initLine state line 3 args

/-- `Logger.info(...args)`: `initLine(logLevel.info, ...args)`. -/
def Logger.info (state : StateSt) (line : LineSt) (args : List String) :
    Except String (StateSt × LineSt) :=
  Logger.initLine state line 7 args

/-! ## Chained Logger variant (src/logger.ts)

The `Logger` class of src/logger.ts composes the line on the logger itself
(`_pre`), with `tab`/`indent` unguarded by any enabled flag, and `output`
joining `[...pre, ...args]` with spaces. -/

/-- The fields of the src/logger.ts `Logger` the claims touch: the pending
parts `_pre`, the tab size `_tab`, the keep-lines switch with its store,
the per-line elapsed flag, and the owned `Style` instance (flag + table). -/
structure LoggerTs where
  pre : List String := []
  tabSize : Int := 2
  keepLines : Bool := false
  lines : List String := []
  showElapsed : Bool := false
  colorFormat : Bool := false
  styles : List (String × StyleDef) := defaultStyles
  deriving DecidableEq

/-- `Logger.tab(n)` (src/logger.ts lines 293-296): pushes
`' '.repeat(n * this._tab - 1)` into `_pre`, with no guard on `n`. -/
def LoggerTs.tab (st : LoggerTs) (n : Int) : Except String LoggerTs :=
  match jsRepeat ' ' (n * st.tabSize - 1) with
  | .ok s => .ok { st with pre := st.pre ++ [s] }
  | .error e => .error e

/-- `Logger.indent(n)` (src/logger.ts lines 279-286): an integer pushes
`' '.repeat(n - 1)`; a non-empty string pushes itself. -/
def LoggerTs.indent (st : LoggerTs) : IndentArg → Except String LoggerTs
  | .int n =>
    match jsRepeat ' ' (n - 1) with
    | .ok s => .ok { st with pre := st.pre ++ [s] }
    | .error e => .error e
  | .str s => .ok (if s ≠ "" then { st with pre := st.pre ++ [s] } else st)

/-- `Logger.stylize(style, ...args)` (src/logger.ts lines 329-333): resolves
the style name in the logger's table (an unknown name resolves to
`undefined`) and pushes `style.format(args.join(' '), styleDef)`. -/
def LoggerTs.stylize (st : LoggerTs) (style : StyleArg) (args : List String) :
    Except String LoggerTs :=
  match Style.formatArg st.colorFormat st.styles style (joinSpace args) with
  | .ok s => .ok { st with pre := st.pre ++ [s] }
  | .error e => .error e

/-- `Logger.output(...args)` (src/logger.ts lines 435-452): joins
`[...pre, ...args]` with single spaces, appends the elapsed reading when
requested, stores the line when `keepLines` is set (otherwise it goes to
`console.log`, returned here as the second component), then clears the
line state (`clearLine`). -/
def LoggerTs.output (st : LoggerTs) (args : List String) (et : String) :
    LoggerTs × Option String :=
  if st.keepLines then
    let line := joinSpace (st.pre ++ args)
    let line := if st.showElapsed then line ++ " " ++ et else line
    ({ st with lines := st.lines ++ [line], showElapsed := false, pre := [] }, none)
  else
    let line := joinSpace (st.pre ++ args ++ (if st.showElapsed then [et] else []))
    ({ st with showElapsed := false, pre := [] }, some line)

/-! ## Per-transport line variant (src/line.ts, src/transports/transport.ts)

`LoggerLine` holds one `TransportLine` per destination; each
`TransportLine` buffers `MsgPart` records and formats them against its
transport's style on `emit`. The style table handed to a `TransportLine`
comes from the `styles` module that is not part of the sources, so the
configuration carries an arbitrary table. -/

/-- A `MsgPart` (src/transports/transport.ts lines 139-142): a string
fragment plus an optional style name. -/
structure MsgPart where
  str : String
  style : Option String := none
  deriving DecidableEq

/-- The `LoggerShowOpts` flags consulted by the `add*` steps of `emit`. -/
structure ShowOpts where
  timestamp : TimePfx := .off
  level : Bool := false
  reqId : Bool := false
  sid : Bool := false
  emitter : Bool := false
  action : Bool := false
  elapsed : Bool := false
  deriving DecidableEq

/-- The mutable state of a `TransportLine`. -/
structure TLine where
  msgParts : List MsgPart := []
  suffix : List String := []
  msgIndent : String := ""
  level : Nat := 7
  levelThreshold : Nat := 7
  enabled : Bool := false
  showElapsed : Bool := false
  reqId : Option String := none
  deriving DecidableEq

/-- The per-transport configuration a `TransportLine` reads: show options,
the transport style's color flag and table, the tab size, and whether the
`_timer` field was ever assigned (the source never assigns it). -/
structure TLineCfg where
  opts : ShowOpts := {}
  colorFormat : Bool := false
  styles : List (String × StyleDef) := defaultStyles
  tabSize : Int := 2
  timerPresent : Bool := false
  deriving DecidableEq

/-- Timer/clock readings consumed during `emit`. -/
structure EmitEnv where
  timeStr : String := ""
  elapsedTotal : String := ""
  elapsedInterval : String := ""
  deriving DecidableEq

/-- JavaScript string conversion of a possibly-`undefined` value. -/
def jsStr : Option String → String
  | some s => s
  | none => "undefined"

/-- `TransportLine.disableIfThresholdNotMet` (src/transports/transport.ts
lines 212-215): `this._enabled = this._levelThreshold <= this._level`. -/
def TLine.disableIfThresholdNotMet (st : TLine) : TLine :=
  { st with enabled := decide (st.levelThreshold ≤ st.level) }

/-- `TransportLine.setLevelThreshold`: stores the threshold and re-runs the
gating check. -/
def TLine.setLevelThreshold (st : TLine) (val : Nat) : TLine :=
  TLine.disableIfThresholdNotMet { st with levelThreshold := val }

/-- `TransportLine.clear` (src/transports/transport.ts lines 222-227):
disables the line and empties parts and suffix. -/
def TLine.clear (st : TLine) : TLine :=
  { st with enabled := false, msgParts := [], suffix := [] }

/-- `TransportLine.addMsgPart(str, style)`. -/
def TLine.addMsgPart (st : TLine) (str : String) (style : Option String := none) : TLine :=
  { st with msgParts := st.msgParts ++ [{ str := str, style := style }] }

/-- `TransportLine.appendMsg(...args)`: pushes the space-join unstyled. -/
def TLine.appendMsg (st : TLine) (args : List String) : TLine :=
  TLine.addMsgPart st (joinSpace args)

/-- `TransportLine.appendSuffix(...args)`. -/
def TLine.appendSuffix (st : TLine) (args : List String) : TLine :=
  { st with suffix := st.suffix ++ [joinSpace args] }

/-- `TransportLine.tab(n)` (src/transports/transport.ts lines 270-275):
when enabled, sets `_msgIndent = ' '.repeat(n * tabSize - 1)`. -/
def TLine.tab (cfg : TLineCfg) (st : TLine) (n : Int) : Except String TLine :=
  if st.enabled then
    match jsRepeat ' ' (n * cfg.tabSize - 1) with
    | .ok s => .ok { st with msgIndent := s }
    | .error e => .error e
  else .ok st

/-- `TransportLine.indent(n)`: when enabled, an integer adds a part of
`n - 1` spaces and a non-empty string adds itself. -/
def TLine.indent (st : TLine) : IndentArg → Except String TLine
  | .int n =>
    if st.enabled then
      match jsRepeat ' ' (n - 1) with
      | .ok s => .ok (TLine.addMsgPart st s)
      | .error e => .error e
    else .ok st
  | .str s =>
    if st.enabled then .ok (if s ≠ "" then TLine.addMsgPart st s else st)
    else .ok st

/-- `TransportLine.stylize(style, ...args)`: when enabled, records the
space-joined arguments tagged with the style name (formatting is deferred
to `emit`). -/
def TLine.stylize (st : TLine) (style : String) (args : List String) : TLine :=
  if st.enabled then TLine.addMsgPart st (joinSpace args) (some style) else st

/-- `addLevelPrefix`: when configured, appends the `[LEVEL]` tag padded to
width 9, tagged with the per-level internal style name. -/
def TLine.addLevelPfxT (cfg : TLineCfg) (st : TLine) : TLine :=
  if cfg.opts.level then
    let levelAsString := getLogLevelString st.level
    TLine.addMsgPart st (rightPadAndTruncate ("[" ++ levelAsString.toUpper ++ "]") 9)
      (some ("_" ++ levelAsString ++ "Prefix"))
  else st

/-- `addTimePrefix`: appends the clock reading tagged `'_timePrefix'`; in
`elapsed` mode the source reads `this._timer.measureFormatted()`, which
throws when the timer was never assigned. -/
def TLine.addTimePfxT (cfg : TLineCfg) (st : TLine) (env : EmitEnv) :
    Except String TLine :=
  match cfg.opts.timestamp with
  | .off => .ok st
  | .elapsedTime =>
    if cfg.timerPresent then
      .ok (TLine.addMsgPart st env.elapsedTotal (some "_timePrefix"))
    else .error "TypeError: cannot read measureFormatted of undefined"
  | _ => .ok (TLine.addMsgPart st env.timeStr (some "_timePrefix"))

/-- `addReqId`: when configured, appends `this._reqId` tagged `'_reqId'`. -/
def TLine.addReqIdT (cfg : TLineCfg) (st : TLine) : TLine :=
  if cfg.opts.reqId then TLine.addMsgPart st (jsStr st.reqId) (some "_reqId") else st

/-- `addSid`: when configured, appends `this._reqId` (the source reads the
request id, not `_sid`) tagged `'_sid'`. -/
def TLine.addSidT (cfg : TLineCfg) (st : TLine) : TLine :=
  if cfg.opts.sid then TLine.addMsgPart st (jsStr st.reqId) (some "_sid") else st

/-- `addEmitter`: when configured, appends `this._reqId` (the source reads
the request id) tagged `'_emitter'`. -/
def TLine.addEmitterT (cfg : TLineCfg) (st : TLine) : TLine :=
  if cfg.opts.emitter then TLine.addMsgPart st (jsStr st.reqId) (some "_emitter") else st

/-- `addAction`: when configured, appends `this._reqId` (the source reads
the request id) tagged `'_action'`. -/
def TLine.addActionT (cfg : TLineCfg) (st : TLine) : TLine :=
  if cfg.opts.action then TLine.addMsgPart st (jsStr st.reqId) (some "_action") else st

/-- `addSuffix`: unconditionally appends the space-joined suffix list
tagged `'_suffix'`. -/
def TLine.addSuffixT (st : TLine) : TLine :=
  TLine.addMsgPart st (joinSpace st.suffix) (some "_suffix")

/-- `addElapsed`: when configured and a timer exists, appends the
`"total (interval)"` reading tagged `'_elapsed'`. -/
def TLine.addElapsedT (cfg : TLineCfg) (st : TLine) (env : EmitEnv) : TLine :=
  if cfg.opts.elapsed ∧ cfg.timerPresent then
    TLine.addMsgPart st (env.elapsedTotal ++ " (" ++ env.elapsedInterval ++ ")")
      (some "_elapsed")
  else st

/-- Formats one `MsgPart` for a transport: `style.format(part.str,
part.style)`, a string style being looked up in the table first. -/
def TLine.formatPart (cfg : TLineCfg) (p : MsgPart) : Except String String :=
  Style.format cfg.colorFormat (p.style.bind (lookupStyle cfg.styles)) p.str

/-- The `forEach` loop of `emit` that formats every buffered part in
order; the first failing `style.format` call aborts the loop with its
exception. -/
def formatParts (cfg : TLineCfg) : List MsgPart → Except String (List String)
  | [] => .ok []
  | p :: rest =>
    match TLine.formatPart cfg p with
    | .error e => .error e
    | .ok s =>
      match formatParts cfg rest with
      | .error e => .error e
      | .ok ss => .ok (s :: ss)

/-- `TransportLine.emit(...args)` (src/transports/transport.ts lines
361-382): disabled lines do nothing; enabled lines run the `add*` chain,
format every part against the transport's style, write the space-join to
the transport (returned as the second component), and clear the line. -/
def TLine.emit (cfg : TLineCfg) (st : TLine) (env : EmitEnv) :
    Except String (TLine × Option String) :=
  if st.enabled then
    match TLine.addTimePfxT cfg (TLine.addLevelPfxT cfg st) env with
    | .error e => .error e
    | .ok st =>
      let st := TLine.addReqIdT cfg st
      let st := TLine.addSidT cfg st
      let st := TLine.addEmitterT cfg st
      let st := TLine.addActionT cfg st
      let st := TLine.addSuffixT st
      let st := TLine.addElapsedT cfg st env
      match formatParts cfg st.msgParts with
      | .error e => .error e
      | .ok parts => .ok (TLine.clear st, some (joinSpace parts))
  else .ok (st, none)

/-- The `LoggerLine` of src/line.ts: per-line flags plus one
`TransportLine` per destination. -/
structure LLine where
  showElapsed : Bool := false
  action : Option String := none
  tlines : List TLine := []
  deriving DecidableEq

/-- `LoggerLine.plain(...args)` (src/line.ts lines 237-242): a non-empty
argument list is appended to every transport line via `appendMsg`. -/
def LLine.plain (l : LLine) (args : List String) : LLine :=
  if args ≠ [] then { l with tlines := l.tlines.map (fun t => TLine.appendMsg t args) }
  else l

/-- `LoggerLine.clear` (src/line.ts lines 137-142): resets the per-line
flags and clears every transport line. -/
def LLine.clear (l : LLine) : LLine :=
  { showElapsed := false, action := none, tlines := l.tlines.map TLine.clear }

/-- The `forEach` loop of `LoggerLine.emit` over the transport lines; the
first transport whose `emit` throws aborts the loop. -/
def emitEach (env : EmitEnv) : List (TLineCfg × TLine) →
    Except String (List (TLine × Option String))
  | [] => .ok []
  | ct :: rest =>
    match TLine.emit ct.1 ct.2 env with
    | .error e => .error e
    | .ok r =>
      match emitEach env rest with
      | .error e => .error e
      | .ok rs => .ok (r :: rs)

/-- `LoggerLine.emit(...args)` (src/line.ts lines 280-284): appends the
trailing arguments via `plain`, emits every transport line (an exception
in one of them propagates), then clears everything unconditionally. The
second component collects what each transport wrote. -/
def LLine.emit (cfgs : List TLineCfg) (l : LLine) (args : List String)
    (env : EmitEnv) : Except String (LLine × List (Option String)) :=
  let l := LLine.plain l args
  match emitEach env (cfgs.zip l.tlines) with
  | .error e => .error e
  | .ok results =>
    .ok (LLine.clear { l with tlines := results.map Prod.fst }, results.map Prod.snd)

/-- Idle line state in the sense of the specification: no fragments, empty
suffix, not enabled. -/
def TLine.isIdle (st : TLine) : Prop :=
  st.msgParts = [] ∧ st.suffix = [] ∧ st.enabled = false

/-! ## FileTransport (src/transports/file.ts)

The write stream is modelled by its written output, its
`writableFinished` flag and whether a one-shot drain handler was
registered; backpressure return values of `stream.write` are inputs. -/

/-- The write stream underlying a `FileTransport`. -/
structure WStream where
  written : List String := []
  writableFinished : Bool := false
  drainPending : Bool := false
  deriving DecidableEq

/-- The `FileTransport` fields involved in write buffering: the optional
stream (`null` before `open()`), the `_writable` backpressure flag and the
internal `_buffer`. -/
structure FileTr where
  stream : Option WStream := none
  writable : Bool := true
  buffer : List String := []
  deriving DecidableEq

/-- `FileTransport._write(msg)` (src/transports/file.ts lines 94-103): with
an open, writable stream the message plus newline goes to the stream and
`_writable` takes the backpressure result; otherwise the message is pushed
onto `_buffer` and, unless the stream is finished, a one-shot drain handler
is registered — but when `_stream` is `null` (before `open()`), the guard
`!this._stream?.writableFinished` passes and `this._stream.once` throws a
`TypeError`. `writeRet` is the backpressure value `stream.write` returns. -/
def FileTr.writeOne (st : FileTr) (msg : String) (writeRet : Bool) :
    Except String FileTr :=
  match st.stream with
  | some s =>
    if st.writable then
      .ok { st with stream := some { s with written := s.written ++ [msg ++ "\n"] },
                    writable := writeRet }
    else
      let st := { st with buffer := st.buffer ++ [msg] }
      if s.writableFinished = false then
        .ok { st with stream := some { s with drainPending := true } }
      else .ok st
  | none => .error "TypeError: cannot read once of null"

/-- `FileTransport.flush` (src/transports/file.ts lines 74-83): when the
buffer is non-empty and a stream exists, takes a snapshot of the buffer,
empties it, and re-writes every message in order through `_write`. One
backpressure result is consumed per write. -/
def FileTr.flushBuf (st : FileTr) (writeRets : List Bool) : Except String FileTr :=
  if st.buffer ≠ [] ∧ st.stream.isSome then
    let flushing := st.buffer
    let st := { st with buffer := [] }
    flushing.foldlM
      (fun (acc : FileTr × List Bool) msg =>
        match acc.2 with
        | r :: rest => do
          let st ← FileTr.writeOne acc.1 msg r
          pure (st, rest)
        | [] => do
          let st ← FileTr.writeOne acc.1 msg true
          pure (st, ([] : List Bool)))
      (st, writeRets) |>.map Prod.fst
  else .ok st

/-- The `drain` handler installed by `open()` (src/transports/file.ts lines
40-43): marks the stream writable again and flushes the buffer. -/
def FileTr.drain (st : FileTr) (writeRets : List Bool) : Except String FileTr :=
  let st := { st with writable := true,
                      stream := st.stream.map (fun s => { s with drainPending := false }) }
  FileTr.flushBuf st writeRets

/-- A two-destination configuration used to exercise `LoggerLine.emit`. -/
def c4Cfgs : List TLineCfg := [{}, {}]

/-- A line with one enabled transport line holding a fragment and one
threshold-disabled transport line still holding leftover parts and a
suffix. -/
def c4Line : LLine :=
  { tlines := [{ msgParts := [{ str := "x" }], level := 7, levelThreshold := 7,
                 enabled := true },
               { msgParts := [{ str := "junk" }], suffix := ["s"], level := 1,
                 levelThreshold := 7, enabled := false }] }

/-- The result of emitting `c4Line`: both transport lines are back to the
idle state; the enabled one wrote its formatted text. -/
def c4Result : LLine × List (Option String) :=
  ({ tlines := [{ level := 7, levelThreshold := 7 },
                { level := 1, levelThreshold := 7 }] },
   [some "x ", none])

/-! ## Claim theorems -/

/-- Claim C1: for every candidate rank `r` and threshold rank `t`, the
level-gating check used by `Logger.isEnabledFor` and by
`TransportLine.disableIfThresholdNotMet` returns true iff `r >= t`;
concretely, with threshold `info` (7), `trace`, `debug` and `verbose` are
suppressed while `info`, `warn` and `error` pass. -/
theorem c1_level_gating :
    (∀ r t : Nat, isLogLevelValue r = true → isLogLevelValue t = true →
      (Logger.isEnabledFor t (.num r) = true ↔ r ≥ t))
    ∧ (∀ st : TLine,
        (TLine.disableIfThresholdNotMet st).enabled = true ↔ st.level ≥ st.levelThreshold)
    ∧ Logger.isEnabledFor 7 (.num 1) = false
    ∧ Logger.isEnabledFor 7 (.num 3) = false
    ∧ Logger.isEnabledFor 7 (.num 5) = false
    ∧ Logger.isEnabledFor 7 (.num 7) = true
    ∧ Logger.isEnabledFor 7 (.num 8) = true
    ∧ Logger.isEnabledFor 7 (.num 9) = true := by
  refine ⟨?_, ?_, by decide, by decide, by decide, by decide, by decide, by decide⟩
  · intro r t hr _
    simp [Logger.isEnabledFor, logLevelToValue, hr, ge_iff_le]
  · intro st
    simp [TLine.disableIfThresholdNotMet, ge_iff_le]

/-- Witness for C1 at ranks 9 (candidate) and 7 (threshold). -/
theorem c1_level_gating_witness :
    isLogLevelValue 9 = true ∧ isLogLevelValue 7 = true
    ∧ (Logger.isEnabledFor 7 (.num 9) = true ↔ 9 ≥ 7) :=
  ⟨by decide, by decide, c1_level_gating.1 9 7 (by decide) (by decide)⟩

/-- Claim C2 counterexample: on a logger with threshold `debug` (the
configuration under which the guard actually fires), `debug('first')`
followed by `info('second')` does throw, but the error message is the
fixed text `Emit the previous log message before logging a new one`,
which does not include the abandoned content `'first'`. -/
theorem c2_counterexample :
    Logger.debug { loggerLevel := 3, keepLines := true } {} ["first"]
      = .ok ({ loggerLevel := 3, keepLines := true },
             { parts := ["first"], level := 3, enabled := true })
    ∧ Logger.info { loggerLevel := 3, keepLines := true }
        { parts := ["first"], level := 3, enabled := true } ["second"]
      = .error "Emit the previous log message before logging a new one"
    ∧ strIncludes "Emit the previous log message before logging a new one" "first"
      = false :=
  ⟨rfl, rfl, by decide⟩

/-- Claim C2 amended: starting a new line while the previous one still
holds buffered parts throws, with the fixed message that does not carry
the abandoned content. -/
theorem c2_single_open_line_amended :
    ∀ (state : StateSt) (line : LineSt) (level : Nat) (args : List String),
      line.parts ≠ [] →
      Logger.initLine state line level args
        = .error "Emit the previous log message before logging a new one" := by
  intro state line level args h
  have hne : line.parts.isEmpty = false := by
    cases hp : line.parts with
    | nil => exact absurd hp h
    | cons a l => rfl
  simp [Logger.initLine, LineSt.isEmpty, hne]

/-- Witness for C2 amended: the scenario of the counterexample. -/
theorem c2_single_open_line_amended_witness :
    ({ parts := ["first"], level := 3, enabled := true } : LineSt).parts ≠ []
    ∧ Logger.initLine { loggerLevel := 3, keepLines := true }
        { parts := ["first"], level := 3, enabled := true } 7 ["second"]
      = .error "Emit the previous log message before logging a new one" :=
  ⟨by decide,
   c2_single_open_line_amended { loggerLevel := 3, keepLines := true }
     { parts := ["first"], level := 3, enabled := true } 7 ["second"] (by decide)⟩

/-- Claim C5: on a logger whose threshold is `debug` (3), `.trace('x')`
leaves the line disabled and empty, and the subsequent `.emit()` neither
writes anywhere (the kept-lines store is unchanged and nothing goes to the
console) nor throws. -/
theorem c5_threshold_suppression_silence :
    Logger.trace { loggerLevel := 3, keepLines := true } {} ["x"]
      = .ok ({ loggerLevel := 3, keepLines := true },
             { parts := [], level := 1, enabled := false })
    ∧ LineSt.emit { loggerLevel := 3, keepLines := true }
        { parts := [], level := 1, enabled := false } [] "10:00:00"
      = .ok ({ loggerLevel := 3, keepLines := true },
             { parts := [], level := 1, enabled := false }, none)
    ∧ TLine.emit {} { level := 1, levelThreshold := 3, enabled := false } {}
      = .ok ({ level := 1, levelThreshold := 3, enabled := false }, none) :=
  ⟨rfl, rfl, rfl⟩

/-- Claim C6: with colorization disabled `Style.format` returns the plain
conversion unmodified; enabled with rule `{fg: green}` it yields exactly
`ESC[92m Hello ESC[0m`; and a rule with both colors wraps each with its
own start escape and its own reset. -/
theorem c6_color_format :
    (∀ (d : Option StyleDef) (s : String), Style.format false d s = .ok s)
    ∧ Style.format true (some { fg := some 92 }) "Hello"
      = .ok "\x1b[92mHello\x1b[0m"
    ∧ (∀ (f b : Nat) (s : String),
        isValidColor (some f) = true → isValidColor (some b) = true →
        Style.format true (some { fg := some f, bg := some b }) s
          = .ok (ansiCode f ++ ansiCode (b + 10) ++ s ++ ansiReset ++ ansiReset)) := by
  refine ⟨fun d s => by simp [Style.format], rfl, ?_⟩
  intro f b s hf hb
  simp [Style.format, fgPre, fgPost, bgPre, bgPost, hf, hb]

/-- Witness for C6 with foreground green (92) and background orange (93). -/
theorem c6_color_format_witness :
    isValidColor (some 92) = true ∧ isValidColor (some 93) = true
    ∧ Style.format true (some { fg := some 92, bg := some 93 }) "Hello"
      = .ok (ansiCode 92 ++ ansiCode 103 ++ "Hello" ++ ansiReset ++ ansiReset) :=
  ⟨by decide, by decide, c6_color_format.2.2 92 93 "Hello" (by decide) (by decide)⟩

/-- Claim C8, evaluated at the failing input: a write issued before the
stream is open (`_stream === null`) pushes onto the buffer but then throws
a `TypeError` from `this._stream.once`, contradicting the claim that such
writes never raise; writes issued while the stream is merely backpressured
are buffered and flushed in order on drain, as claimed. -/
theorem c8_file_write_before_open :
    FileTr.writeOne { stream := none } "line" true
      = .error "TypeError: cannot read once of null"
    ∧ (do
        let st ← FileTr.writeOne { stream := some {}, writable := false } "a" true
        let st ← FileTr.writeOne st "b" true
        FileTr.drain st [true, true]) =
      Except.ok { stream := some { written := ["a\n", "b\n"] }, writable := true,
                  buffer := [] } :=
  ⟨rfl, rfl⟩

/-- Claim C9 counterexample: with color formatting already enabled,
`enable(false)` leaves it enabled — it does not disable as claimed. -/
theorem c9_counterexample :
    Style.enable false true = true ∧ ¬ Style.enable false true = false := by
  constructor
  · rfl
  · intro h
    simp [Style.enable] at h

/-- Claim C9 amended: `enable(true)` always enables (idempotent when
already enabled), while `enable(false)` is a no-op leaving the flag
unchanged: color formatting can never be switched off through `enable`. -/
theorem c9_enable_amended :
    (∀ b, Style.enable true b = true) ∧ (∀ b, Style.enable false b = b) := by
  exact ⟨fun b => rfl, fun b => rfl⟩

/-- Claim C3: `tab(n)` produces an indent of exactly `n * tabSize - 1`
space characters, both on the chained logger (where it is pushed as the
first fragment) and on a transport line (where it is stored in
`_msgIndent`); with tabSize 2, an enabled line carrying `tab(1)` and the
text `'hello'` renders as `'  hello'` after the space-join, and `tab(2)`
renders `'    hello'`. -/
theorem c3_indentation_arithmetic :
    (∀ (st : LoggerTs) (n : Int), 1 ≤ n → 1 ≤ st.tabSize →
      LoggerTs.tab st n = .ok { st with
        pre := st.pre ++ [String.mk (List.replicate (n * st.tabSize - 1).toNat ' ')] })
    ∧ (∀ (cfg : TLineCfg) (st : TLine) (n : Int),
        st.enabled = true → 1 ≤ n → 1 ≤ cfg.tabSize →
        TLine.tab cfg st n = .ok { st with
          msgIndent := String.mk (List.replicate (n * cfg.tabSize - 1).toNat ' ') })
    ∧ (match LoggerTs.tab { tabSize := 2, keepLines := true } 1 with
       | .ok st => LoggerTs.output st ["hello"] ""
       | .error _ => ({}, none)) =
      (({ tabSize := 2, keepLines := true, lines := ["  hello"] } : LoggerTs),
       (none : Option String))
    ∧ (match LoggerTs.tab { tabSize := 2, keepLines := true } 2 with
       | .ok st => LoggerTs.output st ["hello"] ""
       | .error _ => ({}, none)) =
      (({ tabSize := 2, keepLines := true, lines := ["    hello"] } : LoggerTs),
       (none : Option String)) := by
  refine ⟨?_, ?_, rfl, rfl⟩
  · intro st n h1 h2
    have hge : ¬ (n * st.tabSize - 1 < 0) := by nlinarith
    simp [LoggerTs.tab, jsRepeat, hge]
  · intro cfg st n hen h1 h2
    have hge : ¬ (n * cfg.tabSize - 1 < 0) := by nlinarith
    simp [TLine.tab, jsRepeat, hen, hge]

/-- Witness for C3 at `tab(1)` with tabSize 2 on the chained logger and an
enabled transport line. -/
theorem c3_indentation_arithmetic_witness :
    (1 : Int) ≤ 1 ∧ (1 : Int) ≤ ({ tabSize := 2 } : LoggerTs).tabSize
    ∧ LoggerTs.tab { tabSize := 2 } 1
      = .ok { tabSize := 2,
              pre := [String.mk (List.replicate ((1 * (2 : Int) - 1)).toNat ' ')] }
    ∧ TLine.tab { tabSize := 2 } { enabled := true } 1
      = .ok { enabled := true,
              msgIndent := String.mk (List.replicate ((1 * (2 : Int) - 1)).toNat ' ') } :=
  ⟨by decide, by decide,
   c3_indentation_arithmetic.1 { tabSize := 2 } 1 (by decide) (by decide),
   c3_indentation_arithmetic.2.1 { tabSize := 2 } { enabled := true } 1 rfl
     (by decide) (by decide)⟩

/-- Claim C10: `tab(n)` and integer `indent(n)` compute their indent via an
unvalidated `repeat`, so they are total only for `n >= 1`; `tab(0)` (for
any tabSize >= 1) and `indent(0)` throw a `RangeError` from the negative
repeat count, on the chained logger (unguarded) and on an enabled
state-based line. -/
theorem c10_tab_indent_range :
    (∀ (st : LoggerTs) (n : Int), 1 ≤ n → 1 ≤ st.tabSize →
      ∃ st2, LoggerTs.tab st n = .ok st2)
    ∧ (∀ st : LoggerTs, 1 ≤ st.tabSize →
      LoggerTs.tab st 0 = .error "RangeError: Invalid count value")
    ∧ (∀ st : LoggerTs,
      LoggerTs.indent st (.int 0) = .error "RangeError: Invalid count value")
    ∧ (∀ (state : StateSt) (st : LineSt), st.enabled = true → 1 ≤ state.tabSize →
      LineSt.tab state st 0 = .error "RangeError: Invalid count value")
    ∧ (∀ st : LineSt, st.enabled = true →
      LineSt.indent st (.int 0) = .error "RangeError: Invalid count value") := by
  refine ⟨?_, ?_, ?_, ?_, ?_⟩
  · intro st n h1 h2
    have hge : ¬ (n * st.tabSize - 1 < 0) := by nlinarith
    exact ⟨{ st with
        pre := st.pre ++ [String.mk (List.replicate (n * st.tabSize - 1).toNat ' ')] },
      by simp [LoggerTs.tab, jsRepeat, hge]⟩
  · intro st _
    have hlt : (0 : Int) * st.tabSize - 1 < 0 := by simp
    simp [LoggerTs.tab, jsRepeat, hlt]
  · intro st
    have hlt : (0 : Int) - 1 < 0 := by norm_num
    simp [LoggerTs.indent, jsRepeat, hlt]
  · intro state st hen _
    have hlt : (0 : Int) * state.tabSize - 1 < 0 := by simp
    simp [LineSt.tab, jsRepeat, hen, hlt]
  · intro st hen
    have hlt : (0 : Int) - 1 < 0 := by norm_num
    simp [LineSt.indent, jsRepeat, hen, hlt]

/-- Witness for C10: `tab(1)` succeeds and `tab(0)`/`indent(0)` throw at
tabSize 2. -/
theorem c10_tab_indent_range_witness :
    (1 : Int) ≤ 1 ∧ (1 : Int) ≤ ({ tabSize := 2 } : LoggerTs).tabSize
    ∧ (∃ st2, LoggerTs.tab { tabSize := 2 } 1 = .ok st2)
    ∧ LoggerTs.tab { tabSize := 2 } 0 = .error "RangeError: Invalid count value"
    ∧ LoggerTs.indent { tabSize := 2 } (.int 0)
      = .error "RangeError: Invalid count value"
    ∧ LineSt.tab { tabSize := 2 } { enabled := true } 0
      = .error "RangeError: Invalid count value"
    ∧ LineSt.indent { enabled := true } (.int 0)
      = .error "RangeError: Invalid count value" :=
  ⟨by decide, by decide,
   c10_tab_indent_range.1 { tabSize := 2 } 1 (by decide) (by decide),
   c10_tab_indent_range.2.1 { tabSize := 2 } (by decide),
   c10_tab_indent_range.2.2.1 { tabSize := 2 },
   c10_tab_indent_range.2.2.2.1 { tabSize := 2 } { enabled := true } rfl (by decide),
   c10_tab_indent_range.2.2.2.2 { enabled := true } rfl⟩

/-- With color formatting disabled, formatting a part never fails and
returns its text unchanged, so the whole format loop succeeds with the
plain fragment texts. -/
theorem formatParts_colorOff (cfg : TLineCfg) (h : cfg.colorFormat = false) :
    ∀ l : List MsgPart, formatParts cfg l = .ok (l.map MsgPart.str) := by
  intro l
  induction l with
  | nil => rfl
  | cons p rest ih =>
    simp [formatParts, TLine.formatPart, Style.format, h, ih]

/-- Claim C7 counterexample: with colorization enabled, emitting an enabled
line that carries a fragment with the unknown style name `'bogus'` throws a
`TypeError` (`styleDef.fg` on `undefined`) instead of degrading; the same
`TypeError` escapes `Logger.stylize`. -/
theorem c7_counterexample :
    TLine.emit { colorFormat := true }
      { msgParts := [{ str := "x", style := some "bogus" }], enabled := true } {}
      = .error "TypeError: cannot read fg of undefined"
    ∧ lookupStyle defaultStyles "bogus" = none
    ∧ LoggerTs.stylize { colorFormat := true } (.name "bogus") ["x"]
      = .error "TypeError: cannot read fg of undefined" :=
  ⟨rfl, rfl, rfl⟩

/-- Claim C7 amended: with colorization disabled (the default), a fragment
with an unknown style name degrades to its unstyled plain text and the
line is still emitted — `emit` cannot throw from styling; with
colorization enabled, an unknown style name makes the format call throw a
`TypeError`, aborting the emit. -/
theorem c7_style_degradation_amended :
    (∀ (table : List (String × StyleDef)) (a : StyleArg) (s : String),
      Style.formatArg false table a s = .ok s)
    ∧ (∀ (cfg : TLineCfg) (st : TLine) (env : EmitEnv),
        cfg.colorFormat = false → st.enabled = true →
        (cfg.opts.timestamp = TimePfx.elapsedTime → cfg.timerPresent = true) →
        ∃ st2 line, TLine.emit cfg st env = .ok (st2, some line)) := by
  constructor
  · intro table a s
    simp [Style.formatArg, Style.format]
  · intro cfg st env hcf hen htime
    obtain ⟨st1, hst1⟩ :
        ∃ st1, TLine.addTimePfxT cfg (TLine.addLevelPfxT cfg st) env = .ok st1 := by
      unfold TLine.addTimePfxT
      cases hts : cfg.opts.timestamp with
      | off => exact ⟨_, rfl⟩
      | elapsedTime => rw [htime hts]; exact ⟨_, rfl⟩
      | localTime => exact ⟨_, rfl⟩
      | utcTime => exact ⟨_, rfl⟩
    refine ⟨TLine.clear (TLine.addElapsedT cfg (TLine.addSuffixT (TLine.addActionT cfg
        (TLine.addEmitterT cfg (TLine.addSidT cfg (TLine.addReqIdT cfg st1))))) env),
      joinSpace (((TLine.addElapsedT cfg (TLine.addSuffixT (TLine.addActionT cfg
        (TLine.addEmitterT cfg (TLine.addSidT cfg
          (TLine.addReqIdT cfg st1))))) env).msgParts).map MsgPart.str), ?_⟩
    simp only [TLine.emit, hen, if_true, hst1, formatParts_colorOff cfg hcf]

/-- Witness for C7 amended: a default (color-off) transport emits a line
whose only fragment has an unknown style name. -/
theorem c7_style_degradation_amended_witness :
    Style.formatArg false defaultStyles (.name "bogus") "x" = .ok "x"
    ∧ (∃ st2 line, TLine.emit {}
        { msgParts := [{ str := "x", style := some "bogus" }], enabled := true } {}
        = .ok (st2, some line)) :=
  ⟨c7_style_degradation_amended.1 defaultStyles (.name "bogus") "x",
   c7_style_degradation_amended.2 {}
     { msgParts := [{ str := "x", style := some "bogus" }], enabled := true } {}
     rfl rfl (by decide)⟩

/-- Claim C4: whenever `LoggerLine.emit` returns, every transport line —
enabled or threshold-disabled — is back in the idle state: no fragments,
empty suffix, not enabled. -/
theorem c4_emit_clears_line :
    ∀ (cfgs : List TLineCfg) (l : LLine) (args : List String) (env : EmitEnv)
      (res : LLine × List (Option String)),
      LLine.emit cfgs l args env = .ok res →
      ∀ t ∈ res.1.tlines, TLine.isIdle t := by
  intro cfgs l args env res h t ht
  simp only [LLine.emit] at h
  split at h
  · exact absurd h (by simp)
  · obtain rfl := (Except.ok.inj h).symm
    simp only [LLine.clear, List.map_map] at ht
    obtain ⟨y, _, rfl⟩ := List.mem_map.mp ht
    exact ⟨rfl, rfl, rfl⟩

/-- Witness for C4: emitting `c4Line` (one enabled line, one disabled line
with leftover parts) succeeds and every resulting transport line is idle. -/
theorem c4_emit_clears_line_witness :
    LLine.emit c4Cfgs c4Line [] {} = .ok c4Result
    ∧ TLine.isIdle { level := 7, levelThreshold := 7 }
    ∧ TLine.isIdle { level := 1, levelThreshold := 7 } :=
  ⟨rfl,
   c4_emit_clears_line c4Cfgs c4Line [] {} c4Result rfl
     { level := 7, levelThreshold := 7 } (by decide),
   c4_emit_clears_line c4Cfgs c4Line [] {} c4Result rfl
     { level := 1, levelThreshold := 7 } (by decide)⟩
